import Mathlib

/-!
Verification development for the `scrappers_comparision` benchmark pipeline.

This file gives a shallow embedding, in Lean 4, of the crawl-and-cache
orchestration core of the repository:

* `src/crawlers/base.py` — link extraction and canonicalization
  (`_extract_links_from_content`, `_discover_links`, `_canonical_url`,
  `_normalize_host`), the crawl orchestrator (`BaseCrawler.crawl`,
  `_page_name`, `_filter_by_pages`, `_normalize_base`), the retry/backoff
  policy (`_crawl_with_retries_impl`) and the per-host rate limiter;
* `src/evaluator/comparator.py` — the ground-truth scorer
  (`GroundTruthComparator.evaluate`, `_score_feature` and friends);
* `src/pipeline/runner.py` — the cached-extraction stage of
  `BenchmarkRunner.run` together with `_load_cached_artifact`.

Python strings are modelled as Lean `String`s and all the string
manipulation used by the source (strip, lower, split, replace, regex
scans, `urllib.parse` operations) is re-implemented below as executable
structural recursions (a fuel argument replaces the non-structural loops,
with fuel instantiated to the input length, which the loops never exceed).
Python `dict`s are modelled as association lists in insertion order,
Python `set`s as deduplicated lists, float scores as `ℚ`, and the network
as an explicit oracle `url → attempt → outcome`.  Wall-clock time for the
rate limiter is modelled by a simulated clock (`ℚ` timestamps).
-/

namespace Scrappers

/-! ## Python string primitives -/

/-- The whitespace characters recognised by Python `str.strip()` /
regex `\s` (ASCII range, which is all the repository relies on). -/
def isPySpace (c : Char) : Bool :=
  c == ' ' || c == '\t' || c == '\n' || c == '\r' || c == '\x0b' || c == '\x0c'

/-- Python `str.strip()` (no arguments): drop whitespace on both ends. -/
def pyStrip (s : String) : String :=
  String.mk (((s.toList.dropWhile isPySpace).reverse.dropWhile isPySpace).reverse)

/-- Python `str.lower()` (ASCII). -/
def pyLower (s : String) : String :=
  String.mk (s.toList.map Char.toLower)

/-- Python `str.rstrip("/")`. -/
def pyRstripSlash (s : String) : String :=
  String.mk ((s.toList.reverse.dropWhile (· == '/')).reverse)

/-- Python `str.strip("/")`. -/
def pyStripSlash (s : String) : String :=
  String.mk (((s.toList.dropWhile (· == '/')).reverse.dropWhile (· == '/')).reverse)

/-- Python `str.strip("_")`. -/
def pyStripUnderscore (s : String) : String :=
  String.mk (((s.toList.dropWhile (· == '_')).reverse.dropWhile (· == '_')).reverse)

/-- Substring test on character lists: does `needle` occur inside `hay`?
Mirrors Python `needle in hay` for strings. -/
def listContainsSub (needle : List Char) : List Char → Bool
  | [] => needle.isEmpty
  | c :: t => needle.isPrefixOf (c :: t) || listContainsSub needle t

/-- Python `needle in hay` for strings. -/
def strContains (hay needle : String) : Bool :=
  listContainsSub needle.toList hay.toList

/-- Python `hay.startswith(p)`. -/
def strStarts (hay p : String) : Bool :=
  p.toList.isPrefixOf hay.toList

/-- Python `hay.endswith(p)`. -/
def strEnds (hay p : String) : Bool :=
  p.toList.isSuffixOf hay.toList

/-- One step of Python `str.replace` (all occurrences, non-overlapping,
left to right).  `fuel` bounds the number of characters consumed and is
instantiated with the length of the subject string. -/
def replaceListGo (needle repl : List Char) : Nat → List Char → List Char
  | _, [] => []
  | 0, l => l
  | fuel + 1, c :: t =>
    if ¬ needle.isEmpty ∧ needle.isPrefixOf (c :: t) then
      repl ++ replaceListGo needle repl fuel (t.drop (needle.length - 1))
    else
      c :: replaceListGo needle repl fuel t

/-- Python `s.replace(needle, repl)`. -/
def pyReplace (s needle repl : String) : String :=
  String.mk (replaceListGo needle.toList repl.toList s.toList.length s.toList)

/-- Python `s.split(sep)` for a one-character separator (accumulator is the
current chunk, reversed). -/
def splitOnCharGo (sep : Char) : List Char → List Char → List (List Char)
  | [], acc => [acc.reverse]
  | c :: t, acc =>
    if c == sep then acc.reverse :: splitOnCharGo sep t []
    else splitOnCharGo sep t (c :: acc)

/-- Python `s.split(sep)` (one-character separator). -/
def pySplitChar (s : String) (sep : Char) : List String :=
  (splitOnCharGo sep s.toList []).map String.mk

/-- Python `s.split(sep, 1)` / `s.partition(sep)`: split at the first
occurrence of `sep`, if any. -/
def splitOnceGo (sep : Char) : List Char → Option (List Char × List Char)
  | [] => none
  | c :: t =>
    if c == sep then some ([], t)
    else (splitOnceGo sep t).map (fun p => (c :: p.1, p.2))

/-- Regex `\w` (ASCII): letters, digits and underscore. -/
def isWordChar (c : Char) : Bool :=
  c.isAlphanum || c == '_'

/-- Python `re.findall(r"\w+", s)`: the maximal runs of word characters.
`fuel` is instantiated with the length of the input. -/
def wordsGo : Nat → List Char → List (List Char)
  | _, [] => []
  | 0, _ => []
  | fuel + 1, c :: t =>
    if isWordChar c then
      (c :: t.takeWhile isWordChar) :: wordsGo fuel (t.dropWhile isWordChar)
    else
      wordsGo fuel t

/-- Python `re.findall(r"\w+", s)`. -/
def pyWords (s : String) : List String :=
  (wordsGo s.toList.length s.toList).map String.mk

/-- Python `sep.join(parts)`. -/
def joinSep (sep : String) : List String → String
  | [] => ""
  | [x] => x
  | x :: y :: rest => x ++ sep ++ joinSep sep (y :: rest)

/-- The slug used for cache directory keys in
`BenchmarkRunner._load_cached_artifact`:
`re.sub(r"[^a-zA-Z0-9._-]+", "_", text)` collapses every maximal run of
characters outside the class into a single underscore. -/
def isSlugChar (c : Char) : Bool :=
  c.isAlphanum || c == '.' || c == '_' || c == '-'

/-- Collapse runs of non-slug characters to one `_` (regex
`[^a-zA-Z0-9._-]+` replaced by `"_"`). -/
def slugSubGo : List Char → List Char
  | [] => []
  | [c] => if isSlugChar c then [c] else ['_']
  | c :: d :: rest =>
    if isSlugChar c then c :: slugSubGo (d :: rest)
    else if isSlugChar d then '_' :: slugSubGo (d :: rest)
    else slugSubGo (d :: rest)

/-- `slugify` from `BenchmarkRunner`: substitute then `strip("_")`. -/
def slugify (s : String) : String :=
  pyStripUnderscore (String.mk (slugSubGo s.toList))

/-! ## `urllib.parse` model

The fields of `urllib.parse.urlparse` the repository uses are `scheme`,
`netloc`, `path` and `query` (plus the fragment for `urldefrag`); the
`params` component is never consulted and is not modelled. -/

structure UrlParts where
  scheme : String
  netloc : String
  path : String
  query : String
  fragment : String
deriving DecidableEq

/-- Characters allowed in a URL scheme (after the leading letter). -/
def isSchemeChar (c : Char) : Bool :=
  c.isAlpha || c.isDigit || c == '+' || c == '-' || c == '.'

/-- `urllib.parse.urlsplit(url, scheme=defaultScheme)`.  The scheme is the
prefix before the first `:` when it starts with a letter and consists of
scheme characters; a netloc follows a leading `//`; the fragment is split
off at the first `#`, then the query at the first `?`. -/
def urlsplitWith (url defaultScheme : String) : UrlParts :=
  let l := url.toList
  let schemeRest : String × List Char :=
    match splitOnceGo ':' l with
    | some (pre, post) =>
      if ¬ pre.isEmpty ∧ (pre.headD 'a').isAlpha ∧ pre.all isSchemeChar then
        (String.mk (pre.map Char.toLower), post)
      else (defaultScheme, l)
    | none => (defaultScheme, l)
  let netlocRest : List Char × List Char :=
    if ['/', '/'].isPrefixOf schemeRest.2 then
      let after := schemeRest.2.drop 2
      (after.takeWhile (fun c => ¬ (c == '/' || c == '?' || c == '#')),
       after.dropWhile (fun c => ¬ (c == '/' || c == '?' || c == '#')))
    else ([], schemeRest.2)
  let fragSplit : List Char × List Char :=
    match splitOnceGo '#' netlocRest.2 with
    | some (a, b) => (a, b)
    | none => (netlocRest.2, [])
  let querySplit : List Char × List Char :=
    match splitOnceGo '?' fragSplit.1 with
    | some (a, b) => (a, b)
    | none => (fragSplit.1, [])
  ⟨schemeRest.1, String.mk netlocRest.1, String.mk querySplit.1,
   String.mk querySplit.2, String.mk fragSplit.2⟩

/-- `urllib.parse.urlparse(url)` (components used by the repository). -/
def urlparseP (url : String) : UrlParts :=
  urlsplitWith url ""

/-- `urllib.parse.urlunsplit`. -/
def urlunsplitP (u : UrlParts) : String :=
  let url := u.path
  let url :=
    if u.netloc ≠ "" ∨ strStarts url "//" then
      "//" ++ u.netloc ++ (if url ≠ "" ∧ ¬ strStarts url "/" then "/" ++ url else url)
    else url
  let url := if u.scheme ≠ "" then u.scheme ++ ":" ++ url else url
  let url := if u.query ≠ "" then url ++ "?" ++ u.query else url
  if u.fragment ≠ "" then url ++ "#" ++ u.fragment else url

/-- Schemes treated as relative-capable by `urljoin` (`uses_relative`). -/
def usesRelative : List String :=
  ["", "ftp", "http", "gopher", "nntp", "imap", "wais", "file", "https",
   "shttp", "mms", "prospero", "rtsp", "rtspu", "sftp", "svn", "svn+ssh",
   "ws", "wss"]

/-- Schemes that carry a netloc (`uses_netloc`, the members relevant here). -/
def usesNetloc : List String :=
  ["", "ftp", "http", "gopher", "nntp", "telnet", "imap", "wais", "file",
   "mms", "https", "shttp", "snews", "prospero", "rtsp", "rtspu", "rsync",
   "svn", "svn+ssh", "sftp", "nfs", "git", "git+ssh", "ws", "wss"]

/-- RFC 3986 dot-segment resolution used inside `urljoin`. -/
def resolveSegments (segments : List String) : List String :=
  let resolved := segments.foldl
    (fun acc seg =>
      if seg = ".." then acc.dropLast
      else if seg = "." then acc
      else acc ++ [seg]) []
  if segments.getLast? = some ".." ∨ segments.getLast? = some "." then
    resolved ++ [""]
  else resolved

/-- `urllib.parse.urljoin(base, url)` (CPython algorithm, minus the unused
`params` component). -/
def urljoinP (base url : String) : String :=
  if base = "" then url
  else if url = "" then base
  else
    let b := urlsplitWith base ""
    let r := urlsplitWith url b.scheme
    if r.scheme ≠ b.scheme ∨ ¬ usesRelative.contains r.scheme then url
    else if usesNetloc.contains r.scheme ∧ r.netloc ≠ "" then urlunsplitP r
    else
      let netloc := if usesNetloc.contains r.scheme then b.netloc else r.netloc
      if r.path = "" then
        let query := if r.query ≠ "" then r.query else b.query
        urlunsplitP ⟨r.scheme, netloc, b.path, query, r.fragment⟩
      else
        let segments :=
          if strStarts r.path "/" then pySplitChar r.path '/'
          else
            let baseParts := pySplitChar b.path '/'
            let baseParts :=
              if baseParts.getLast? ≠ some "" then baseParts.dropLast else baseParts
            match baseParts ++ pySplitChar r.path '/' with
            | [] => []
            | x :: rest =>
              match rest.getLast? with
              | none => [x]
              | some lastSeg => x :: ((rest.dropLast.filter (fun s => s ≠ "")) ++ [lastSeg])
        let path := joinSep "/" (resolveSegments segments)
        let path := if path = "" then "/" else path
        urlunsplitP ⟨r.scheme, netloc, path, r.query, r.fragment⟩

/-- `urllib.parse.urldefrag(url)` (the URL component of the result). -/
def urldefragP (url : String) : String :=
  if strContains url "#" then
    let p := urlparseP url
    urlunsplitP ⟨p.scheme, p.netloc, p.path, p.query, ""⟩
  else url

/-! ## Link extraction — `BaseCrawler._extract_links_from_content`

Three regex scans over the content, in the order of the source: HTML
`href` attributes, markdown inline links, markdown autolinks.  Each scan
mirrors `re.finditer`: at every position try to match; on success continue
after the match, otherwise advance one character. -/

/-- The double-quote character. -/
def dquote : Char := Char.ofNat 34

/-- The single-quote character. -/
def squote : Char := Char.ofNat 39

/-- Is `c` one of the two quote characters of the `href` regex class? -/
def isQuote (c : Char) : Bool :=
  c == dquote || c == squote

/-- Try to match `href\s*=\s*["']([^"']+)["']` (case-insensitive) at the
head of `l`; return the captured group and the remainder after the match. -/
def matchHrefAt (l : List Char) : Option (List Char × List Char) :=
  if (l.take 4).map Char.toLower = ['h', 'r', 'e', 'f'] then
    match (l.drop 4).dropWhile isPySpace with
    | '=' :: r2 =>
      match r2.dropWhile isPySpace with
      | q :: r4 =>
        if isQuote q then
          let tok := r4.takeWhile (fun c => ¬ isQuote c)
          match tok, r4.dropWhile (fun c => ¬ isQuote c) with
          | [], _ => none
          | _ :: _, cq :: rest2 => if isQuote cq then some (tok, rest2) else none
          | _ :: _, [] => none
        else none
      | [] => none
    | _ => none
  else none

/-- Try to match the markdown inline link regex `\[[^\]]+\]\(([^)]+)\)`
at the head of `l`. -/
def matchMdAt (l : List Char) : Option (List Char × List Char) :=
  match l with
  | '[' :: r =>
    match r.takeWhile (fun c => ¬ (c == ']')), r.dropWhile (fun c => ¬ (c == ']')) with
    | [], _ => none
    | _ :: _, ']' :: '(' :: r2 =>
      let url := r2.takeWhile (fun c => ¬ (c == ')'))
      match url, r2.dropWhile (fun c => ¬ (c == ')')) with
      | [], _ => none
      | _ :: _, ')' :: rest => some (url, rest)
      | _ :: _, _ => none
    | _ :: _, _ => none
  | _ => none

/-- Try to match the autolink regex `<(https?://[^>]+)>` at the head of
`l`; the captured group includes the scheme. -/
def matchAutoAt (l : List Char) : Option (List Char × List Char) :=
  match l with
  | '<' :: r =>
    let pre : Option (List Char) :=
      if ['h', 't', 't', 'p', 's', ':', '/', '/'].isPrefixOf r then
        some ['h', 't', 't', 'p', 's', ':', '/', '/']
      else if ['h', 't', 't', 'p', ':', '/', '/'].isPrefixOf r then
        some ['h', 't', 't', 'p', ':', '/', '/']
      else none
    match pre with
    | some p =>
      let r2 := r.drop p.length
      let tok := r2.takeWhile (fun c => ¬ (c == '>'))
      match tok, r2.dropWhile (fun c => ¬ (c == '>')) with
      | [], _ => none
      | _ :: _, '>' :: rest => some (p ++ tok, rest)
      | _ :: _, _ => none
    | none => none
  | _ => none

/-- `re.finditer` driver: scan left to right collecting the captures of
`m`, advancing one character after a failed match.  Every matcher consumes
at least one character on success, so the input length is enough fuel. -/
def scanAll (m : List Char → Option (List Char × List Char)) : Nat → List Char → List String
  | 0, _ => []
  | _ + 1, [] => []
  | fuel + 1, c :: t =>
    match m (c :: t) with
    | some (tok, rest) => String.mk tok :: scanAll m fuel rest
    | none => scanAll m fuel t

/-- `BaseCrawler._extract_links_from_content`. -/
def extract_links_from_content (content : String) : List String :=
  let l := content.toList
  scanAll matchHrefAt l.length l ++ scanAll matchMdAt l.length l ++
    scanAll matchAutoAt l.length l

/-! ## Link discovery — `BaseCrawler._discover_links` and helpers -/

/-- `BaseCrawler._normalize_host`. -/
def normalize_host (host : String) : String :=
  let host := pyLower host
  if strStarts host "www." then String.mk (host.toList.drop 4) else host

/-- `BaseCrawler._canonical_url`: scheme + host + path with the trailing
slash stripped (root path kept as `/`). -/
def canonical_url (url : String) : String :=
  let parsed := urlparseP url
  let path := if parsed.path = "" then "/" else parsed.path
  let path := if path ≠ "/" then pyRstripSlash path else path
  parsed.scheme ++ "://" ++ parsed.netloc ++ path

/-- `BaseCrawler._normalize_base`. -/
def normalize_base (domain : String) : String :=
  let base := pyRstripSlash domain
  if ¬ strStarts base "http" then "https://" ++ base else base

/-- `BaseCrawler._page_name` (the `base` parameter is unused, as in the
source). -/
def page_name (url base : String) : String :=
  let parsed := urlparseP url
  let path := if parsed.path = "" then "/" else parsed.path
  if path = "/" then "homepage"
  else
    let path := pyRstripSlash path
    let path := if ¬ strStarts path "/" then "/" ++ path else path
    if parsed.query ≠ "" then path ++ "?" ++ parsed.query else path

/-- `BaseCrawler._filter_by_pages`. -/
def filter_by_pages (urls pages : List String) : List String :=
  let wanted := (pages.filter (fun p => p ≠ "")).map (fun p => pyLower (pyStripSlash p))
  urls.filter (fun url => wanted.contains (pyLower (pyStripSlash (urlparseP url).path)))

/-- The `skip_path_tokens` tuple of `_discover_links`. -/
def skip_path_tokens : List String :=
  ["/login", "/log-in", "/signin", "/sign-in", "/signup", "/sign-up",
   "/register", "/auth", "/authenticate", "/oauth", "/sso"]

/-- The `skip_exts` set of `_discover_links`. -/
def skip_exts : List String :=
  [".png", ".jpg", ".jpeg", ".gif", ".svg", ".webp", ".ico",
   ".css", ".js", ".json", ".xml", ".pdf", ".zip", ".rar",
   ".mp4", ".mp3", ".woff", ".woff2", ".ttf", ".eot"]

/-- The non-navigational prefixes dropped by `_discover_links`. -/
def skip_link_prefixes : List String :=
  ["#", "mailto:", "tel:", "javascript:", "data:"]

/-- The loop state of `_discover_links`: the `seen` set of canonical forms
and the two output sequences. -/
structure LinkAcc where
  seen : List String
  internal : List String
  external : List String
deriving DecidableEq

/-- Loop invariant of `_discover_links`: emitted links have pairwise
distinct canonical forms, none equal to the canonical base URL, and all
canonical forms are recorded in `seen`. -/
def LinkAccInv (base : String) (acc : LinkAcc) : Prop :=
  ((acc.internal ++ acc.external).map canonical_url).Nodup ∧
  (∀ u ∈ acc.internal ++ acc.external, canonical_url u ≠ canonical_url base) ∧
  (∀ u ∈ acc.internal ++ acc.external, canonical_url u ∈ acc.seen)

/-- One iteration of the `for raw in raw_links` loop of `_discover_links`. -/
def stepLink (base baseHost : String) (acc : LinkAcc) (raw : String) : LinkAcc :=
  let cleaned := pyStrip raw
  if cleaned = "" ∨ skip_link_prefixes.any (fun p => strStarts cleaned p) then acc
  else
    let absolute := urldefragP (urljoinP base cleaned)
    let parsed := urlparseP absolute
    if ¬ (parsed.scheme = "http" ∨ parsed.scheme = "https") ∨ parsed.netloc = "" then acc
    else
      let pathLower := pyLower parsed.path
      if skip_path_tokens.any (fun tok => strContains pathLower tok) then acc
      else if skip_exts.any (fun ext => strEnds pathLower ext) then acc
      else
        let host := normalize_host parsed.netloc
        let canonical := canonical_url absolute
        if canonical = canonical_url base then acc
        else if acc.seen.contains canonical then acc
        else if host = baseHost ∨ strEnds host ("." ++ baseHost) then
          ⟨acc.seen ++ [canonical], acc.internal ++ [absolute], acc.external⟩
        else
          ⟨acc.seen ++ [canonical], acc.internal, acc.external ++ [absolute]⟩

/-- `BaseCrawler._discover_links`. -/
def discover_links (content base : String) : List String × List String :=
  if content = "" then ([], [])
  else
    let baseHost := normalize_host (urlparseP base).netloc
    let acc := (extract_links_from_content content).foldl (stepLink base baseHost) ⟨[], [], []⟩
    (acc.internal, acc.external)

/-! ## Retry policy — `BaseCrawler._crawl_with_retries_impl`

The network is an oracle from attempt number to outcome.  The rate-limiter
sleeps do not influence the returned data and are modelled separately
below; the data-relevant behaviour (retry on transient HTTP codes with
`2 ** attempt` backoff, error recording on the final attempt) is embedded
here together with an event trace that records each attempt and backoff. -/

inductive FetchOutcome where
  | ok (content : String) (html : Option String)
  | err (msg : String)
deriving DecidableEq

/-- Did the fetch attempt raise? -/
def FetchOutcome.isErr : FetchOutcome → Bool
  | .err _ => true
  | .ok _ _ => false

inductive RetryEvent where
  | attemptOk (attempt : Nat)
  | attemptFail (attempt : Nat) (msg : String)
  | backoff (attempt : Nat) (seconds : Nat)
deriving DecidableEq

/-- `any(code in error_str for code in ["429", "403", "503"])`. -/
def has_transient_code (e : String) : Bool :=
  strContains e "429" || strContains e "403" || strContains e "503"

/-- The result of `_crawl_with_retries_impl`: the returned content and
html, the messages appended to the shared `errors` list, and the trace of
attempts and backoff sleeps. -/
structure RetryOutput where
  content : String
  html : Option String
  newErrors : List String
  events : List RetryEvent
deriving DecidableEq

/-- The `for attempt in range(self.max_retries)` loop of
`_crawl_with_retries_impl`, one constructor case per remaining iteration
(`fuel` is `max_retries - attempt`; the fuel-0 case is the fall-through
`return "", None` after the loop). -/
def crawl_with_retries_go (maxRetries : Nat) (useHtml : Bool) (pageName url : String)
    (fetch : Nat → FetchOutcome) : Nat → Nat → RetryOutput
  | 0, _ => ⟨"", none, [], []⟩
  | fuel + 1, attempt =>
    match fetch attempt with
    | .ok c htm =>
      ⟨c, if useHtml then htm else none, [], [.attemptOk attempt]⟩
    | .err e =>
      if attempt < maxRetries - 1 ∧ has_transient_code e then
        let rest := crawl_with_retries_go maxRetries useHtml pageName url fetch fuel (attempt + 1)
        ⟨rest.content, rest.html, rest.newErrors,
         .attemptFail attempt e :: .backoff attempt (2 ^ attempt) :: rest.events⟩
      else if attempt = maxRetries - 1 then
        ⟨"", none, [pageName ++ " (" ++ url ++ "): " ++ e], [.attemptFail attempt e]⟩
      else
        let rest := crawl_with_retries_go maxRetries useHtml pageName url fetch fuel (attempt + 1)
        ⟨rest.content, rest.html, rest.newErrors, .attemptFail attempt e :: rest.events⟩

/-- `BaseCrawler._crawl_with_retries_impl`. -/
def crawl_with_retries_impl (maxRetries : Nat) (useHtml : Bool) (pageName url : String)
    (fetch : Nat → FetchOutcome) : RetryOutput :=
  crawl_with_retries_go maxRetries useHtml pageName url fetch maxRetries 0

/-! ## Crawl orchestrator — `BaseCrawler.crawl` -/

inductive CrawlerType where
  | firecrawl | crawl4ai | jina | scrapingbee | scraperapi | custom_html
deriving DecidableEq

/-- `BaseCrawler._should_rate_limit`: only local crawlers. -/
def should_rate_limit (ct : CrawlerType) : Bool :=
  ct = CrawlerType.crawl4ai ∨ ct = CrawlerType.custom_html

/-- `BaseCrawler._use_raw_html_for_discovery`. -/
def use_raw_html_for_discovery (ct : CrawlerType) : Bool :=
  should_rate_limit ct

/-- `BaseCrawler._crawl_homepage`: local crawlers fetch with raw HTML,
the rest discard the html component. -/
def crawl_homepage (ct : CrawlerType) (maxRetries : Nat) (base : String)
    (fetch : String → Nat → FetchOutcome) : RetryOutput :=
  if use_raw_html_for_discovery ct then
    crawl_with_retries_impl maxRetries true "homepage" base (fetch base)
  else
    let r := crawl_with_retries_impl maxRetries false "homepage" base (fetch base)
    ⟨r.content, none, r.newErrors, r.events⟩

/-- The mutable `CrawlResult` dataclass fields the orchestrator computes
(timestamps and durations are not modelled). -/
structure CrawlResultE where
  domain : String
  crawler : CrawlerType
  raw_content : String
  page_contents : List (String × String)
  homepage_internal_links : Nat
  homepage_total_links : Nat
  homepage_external_links : Nat
  homepage_internal_links_crawled : Nat
  error : Option String
deriving DecidableEq

/-- The two preferred URLs of `BaseCrawler.crawl`:
`[urljoin(base + "/", "pricing"), urljoin(base + "/", "about")]`. -/
def preferred_links (base : String) : List String :=
  [urljoinP (base ++ "/") "pricing", urljoinP (base ++ "/") "about"]

/-- The reordering step of `BaseCrawler.crawl`: preferred URLs whose
canonical form was discovered first, then the discovered URLs not already
present (string membership, as in the source). -/
def reorder_discovered (base : String) (discovered : List String) : List String :=
  let dset := (discovered.map canonical_url).dedup
  let ordered0 := (preferred_links base).filter (fun url => dset.contains (canonical_url url))
  discovered.foldl (fun ord url => if ord.contains url then ord else ord ++ [url]) ordered0

/-- The page-filter and page-budget step of `BaseCrawler.crawl`
(`if pages: ... or discovered` and `discovered[: max(0, max_pages)]`). -/
def select_pages (pages : Option (List String)) (max_pages : Option Int)
    (discovered : List String) : List String :=
  let discovered :=
    match pages with
    | some ps =>
      if ¬ ps.isEmpty then
        let f := filter_by_pages discovered ps
        if f.isEmpty then discovered else f
      else discovered
    | none => discovered
  match max_pages with
  | some mp => discovered.take (max 0 mp).toNat
  | none => discovered

/-- One iteration of the `for url in discovered` fetch loop of
`BaseCrawler.crawl`; the state is (page_contents, errors). -/
def page_fold_step (maxRetries : Nat) (fetch : String → Nat → FetchOutcome) (base : String)
    (st : List (String × String) × List String) (url : String) :
    List (String × String) × List String :=
  let pname := page_name url base
  if (st.1.map Prod.fst).contains pname then st
  else
    let r := crawl_with_retries_impl maxRetries false pname url (fetch url)
    let errs := st.2 ++ r.newErrors
    if r.content ≠ "" ∧ pyStrip r.content ≠ "" then (st.1 ++ [(pname, r.content)], errs)
    else (st.1, errs)

/-- `BaseCrawler.crawl`: homepage, discovery, reorder, filter, budget,
page fetches, combined document and counters. -/
def crawl (ct : CrawlerType) (maxRetries : Nat) (fetch : String → Nat → FetchOutcome)
    (domain : String) (pages : Option (List String)) (max_pages : Option Int) : CrawlResultE :=
  let base := normalize_base domain
  let hp := crawl_homepage ct maxRetries base fetch
  let page_contents0 :=
    if hp.content ≠ "" ∧ pyStrip hp.content ≠ "" then [("homepage", hp.content)] else []
  let discovery_source :=
    match hp.html with
    | some h => if h = "" then hp.content else h
    | none => hp.content
  let dl := discover_links discovery_source base
  let dset := (dl.1.map canonical_url).dedup
  let selected := select_pages pages max_pages (reorder_discovered base dl.1)
  let st := selected.foldl (page_fold_step maxRetries fetch base) (page_contents0, hp.newErrors)
  let combined :=
    joinSep "\n\n---\n\n" (st.1.map (fun p => "## Page: " ++ p.1 ++ "\n\n" ++ p.2))
  ⟨domain, ct, combined, st.1,
   dset.length, dset.length + dl.2.length, dl.2.length, selected.length,
   if ¬ st.2.isEmpty then some (joinSep "; " st.2) else none⟩

/-! ## Domain rate limiter — the timing decision of `_crawl_with_retries_impl`

The lock serializes the timing decisions for one host, so any interleaving
of concurrent crawls of that host is a sequence of decisions, each seeing
the clock (`now`) at a moment no earlier than the previously recorded
start.  `random.uniform(-0.2 * wait, 0.2 * wait)` is modelled by a jitter
fraction `j ∈ [-1/5, 1/5]` applied multiplicatively (the waits are
nonnegative in the branch where jitter is drawn, so the two
parameterizations coincide).  Sleeping advances the simulated clock by
exactly the slept amount, and `_last_request_time` is recorded at the
moment the fetch starts, as in the source. -/

/-- The start time of one rate-limited fetch attempt given the recorded
last-request time, the clock reading under the lock, and the jitter
fraction. -/
def rate_limit_start (min_delay last_time now jitter : ℚ) : ℚ :=
  let elapsed := now - last_time
  if elapsed < min_delay then
    let wait := min_delay - elapsed
    let wait := wait + jitter * wait
    now + max 0 wait
  else now

/-- The start times of a sequence of rate-limited fetch attempts on one
host; each event is (clock reading under the lock, jitter fraction), and
each start becomes the recorded last-request time for the next. -/
def limiter_starts (min_delay : ℚ) : ℚ → List (ℚ × ℚ) → List ℚ
  | _, [] => []
  | last, (now, j) :: rest =>
    rate_limit_start min_delay last now j ::
      limiter_starts min_delay (rate_limit_start min_delay last now j) rest

/-- Admissibility of a trace: the clock never runs backwards past the
recorded start, and each jitter fraction lies in `[-1/5, 1/5]` (the range
of `random.uniform(-0.2 w, 0.2 w)` as a fraction of `w`). -/
def ValidTrace (min_delay : ℚ) : ℚ → List (ℚ × ℚ) → Prop
  | _, [] => True
  | last, (now, j) :: rest =>
    last ≤ now ∧ -(1/5) ≤ j ∧ j ≤ 1/5 ∧
      ValidTrace min_delay (rate_limit_start min_delay last now j) rest

/-! ## Feature schema — `src/models.py`

`FEATURES` and `FEATURE_TYPES` are derived in the source from the
`AugmentedCompany` pydantic model by dropping `domain` and the
`*_explanation` fields; the resulting lists are written out here. -/

inductive FeatureType where
  | LITERAL_BOOL | LITERAL_ENUM | TEXT | LIST
deriving DecidableEq

def FEATURES : List String :=
  ["under_maintenance", "early_access", "language", "capital_intensive_business",
   "people_based_service", "product_category", "operation_country",
   "main_product_type", "pricing_information", "industries", "key_features",
   "used_by", "number_of_employees", "featured_in", "press_releases",
   "backing_funds", "patents", "customers_served", "competitors", "conferences"]

def FEATURE_TYPES : List (String × FeatureType) :=
  [("under_maintenance", .LITERAL_BOOL), ("early_access", .LITERAL_BOOL),
   ("language", .TEXT), ("capital_intensive_business", .LITERAL_BOOL),
   ("people_based_service", .LITERAL_BOOL), ("product_category", .LITERAL_ENUM),
   ("operation_country", .LIST), ("main_product_type", .TEXT),
   ("pricing_information", .TEXT), ("industries", .LIST), ("key_features", .LIST),
   ("used_by", .LIST), ("number_of_employees", .TEXT), ("featured_in", .LIST),
   ("press_releases", .LIST), ("backing_funds", .LIST), ("patents", .TEXT),
   ("customers_served", .TEXT), ("competitors", .LIST), ("conferences", .LIST)]

def GT_FIELD_MAP : List (String × String) :=
  [("is_working", "under_maintenance"), ("is_launched", "early_access"),
   ("is_capital_intensive", "capital_intensive_business"),
   ("is_people_based_service", "people_based_service"),
   ("language", "language"), ("operation_country", "operation_country"),
   ("main_product_type", "main_product_type"),
   ("pricing_information", "pricing_information"), ("industries", "industries"),
   ("key_features", "key_features"), ("product_category", "product_category"),
   ("used_by", "used_by"), ("number_of_employees", "number_of_employees"),
   ("Featured_in", "featured_in"), ("Press_releases", "press_releases"),
   ("backing_funds", "backing_funds"), ("Patents", "patents"),
   ("customers_served", "customers_served"), ("Competitors", "competitors"),
   ("conferences_attendance", "conferences")]

def GT_INVERTED_BOOLEANS : List String :=
  ["under_maintenance", "early_access"]

/-! ## Evaluator — `src/evaluator/comparator.py`

Python values flowing through the scorer (JSON-decoded extraction values
and ground-truth values) are modelled by `Value`: `None`, strings,
booleans, integers and flat lists of such atoms. -/

inductive Atom where
  | anone
  | astr (s : String)
  | abool (b : Bool)
  | aint (n : Int)
deriving DecidableEq

inductive Value where
  | vnone
  | vstr (s : String)
  | vlist (items : List Atom)
  | vbool (b : Bool)
  | vint (n : Int)
deriving DecidableEq

/-- Python `str(atom)`. -/
def pyStrAtom : Atom → String
  | .anone => "None"
  | .astr s => s
  | .abool b => if b then "True" else "False"
  | .aint n => toString n

/-- Python `repr(atom)` (as used by `str` on a list). -/
def pyReprAtom : Atom → String
  | .astr s => String.mk (squote :: s.toList ++ [squote])
  | a => pyStrAtom a

/-- Python `str(value)`. -/
def pyStr : Value → String
  | .vnone => "None"
  | .vstr s => s
  | .vbool b => if b then "True" else "False"
  | .vint n => toString n
  | .vlist items => "[" ++ joinSep ", " (items.map pyReprAtom) ++ "]"

/-- Python truthiness of an atom. -/
def pyTruthyAtom : Atom → Bool
  | .anone => false
  | .astr s => s ≠ ""
  | .abool b => b
  | .aint n => n ≠ 0

/-- `GroundTruthComparator._is_present_value`. -/
def is_present_value : Value → Bool
  | .vnone => false
  | .vlist items => items.any (fun v => pyStrip (pyStrAtom v) ≠ "")
  | .vstr s => ¬ (["", "unknown", "null", "none"].contains (pyLower (pyStrip s)))
  | .vbool _ => true
  | .vint _ => true

/-- `GroundTruthComparator._normalize_list`. -/
def normalize_list : Value → List String
  | .vlist items => (items.filter pyTruthyAtom).map (fun v => pyStrip (pyLower (pyStrAtom v)))
  | .vstr s => ((pySplitChar s ',').map (fun t => pyLower (pyStrip t))).filter (fun i => i ≠ "")
  | _ => []

/-- `GroundTruthComparator._score_literal_bool` (the `feat_name` parameter
is unused in the source body and omitted). -/
def score_literal_bool (extracted ground_truth : Value) : ℚ × String :=
  let ext_str := pyStrip (pyLower (pyStr extracted))
  let gt_str := pyStrip (pyLower (pyStr ground_truth))
  let gt_str :=
    if gt_str = "yes" ∨ gt_str = "1" then "true"
    else if gt_str = "no" ∨ gt_str = "0" then "false"
    else gt_str
  if ext_str = gt_str then (1, "exact")
  else if ext_str = "unknown" ∨ gt_str = "unknown" then (1/2, "partial")
  else (0, "mismatch")

/-- `GroundTruthComparator._score_literal_enum`. -/
def score_literal_enum (extracted ground_truth : Value) : ℚ × String :=
  let ext_str := pyStrip (pyLower (pyStr extracted))
  let gt_str := pyStrip (pyLower (pyStr ground_truth))
  if ext_str = gt_str then (1, "exact")
  else if strContains gt_str ext_str ∨ strContains ext_str gt_str then (3/5, "partial")
  else (0, "mismatch")

/-- `GroundTruthComparator._score_list`. -/
def score_list (extracted ground_truth : Value) : ℚ × String :=
  let ext_items := normalize_list extracted
  let gt_items := normalize_list ground_truth
  if ext_items.isEmpty ∧ gt_items.isEmpty then (1, "both_null")
  else if ext_items.isEmpty ∨ gt_items.isEmpty then (1/5, "mismatch")
  else
    let ext_set := ext_items.toFinset
    let gt_set := gt_items.toFinset
    let inter := (ext_set ∩ gt_set).card
    let union := (ext_set ∪ gt_set).card
    if union = 0 then (1, "both_null")
    else
      let jaccard : ℚ := (inter : ℚ) / (union : ℚ)
      if 4/5 ≤ jaccard then (1, "exact")
      else if 1/2 ≤ jaccard then (4/5, "close")
      else
        let ext_words := ((ext_items.map pyWords).flatten).toFinset
        let gt_words := ((gt_items.map pyWords).flatten).toFinset
        if ¬ ext_words = ∅ ∧ ¬ gt_words = ∅ then
          let word_overlap : ℚ :=
            ((ext_words ∩ gt_words).card : ℚ) / ((max ext_words.card gt_words.card : Nat) : ℚ)
          if 1/2 < word_overlap then (3/5, "partial") else (1/5, "mismatch")
        else (1/5, "mismatch")

/-- `GroundTruthComparator._score_text`. -/
def score_text (extracted ground_truth : Value) : ℚ × String :=
  let ext_str := pyStrip (pyLower (pyStr extracted))
  let gt_str := pyStrip (pyLower (pyStr ground_truth))
  if ext_str = gt_str then (1, "exact")
  else if strContains gt_str ext_str ∨ strContains ext_str gt_str then (4/5, "substring")
  else
    let ext_words := (pyWords ext_str).toFinset
    let gt_words := (pyWords gt_str).toFinset
    if ¬ ext_words = ∅ ∧ ¬ gt_words = ∅ then
      let overlap : ℚ :=
        ((ext_words ∩ gt_words).card : ℚ) / ((max ext_words.card gt_words.card : Nat) : ℚ)
      if 1/2 < overlap then (3/5, "partial") else (1/5, "mismatch")
    else (1/5, "mismatch")

/-- `GroundTruthComparator._score_feature`. -/
def score_feature (feat_name : String) (extracted ground_truth : Value)
    (gt_present : Bool) : ℚ × String :=
  let feat_type := (List.lookup feat_name FEATURE_TYPES).getD FeatureType.TEXT
  if extracted = .vnone ∧ ¬ gt_present = true then (1, "both_null")
  else if extracted = .vnone ∧ gt_present = true then (0, "missing")
  else if ¬ extracted = .vnone ∧ ¬ gt_present = true then
    match extracted with
    | .vlist [] => (1, "both_null")
    | .vstr s => if pyLower s = "unknown" ∨ pyLower s = "" then (1, "both_null")
                 else (3/10, "false_positive")
    | _ => (3/10, "false_positive")
  else
    match feat_type with
    | .LITERAL_BOOL => score_literal_bool extracted ground_truth
    | .LITERAL_ENUM => score_literal_enum extracted ground_truth
    | .LIST => score_list extracted ground_truth
    | .TEXT => score_text extracted ground_truth

/-- `GroundTruthComparator._score_presence`. -/
def score_presence (extracted_present gt_present : Bool) : ℚ × String :=
  if extracted_present = gt_present then (1, "exact") else (0, "mismatch")

/-- One ground-truth feature record (`{"present": ..., "value": ...}`). -/
structure GtFeat where
  present : Bool
  value : Value
deriving DecidableEq

/-- One ground-truth JSONL entry (the fields the comparator reads). -/
structure GtEntry where
  url : String
  features : List (String × GtFeat)
deriving DecidableEq

/-- `GroundTruthComparator._get_gt_feature`: reverse lookup through
`GT_FIELD_MAP` with underscore/space variants, then the new name. -/
def get_gt_feature (gt_features : List (String × GtFeat)) (new_feat_name : String) :
    Option GtFeat × Bool :=
  let old_names := (GT_FIELD_MAP.filter (fun p => p.2 = new_feat_name)).map Prod.fst
  match old_names.findSome? (fun old =>
      match List.lookup old gt_features with
      | some gf => some gf
      | none =>
        match List.lookup (pyReplace old "_" " ") gt_features with
        | some gf => some gf
        | none => List.lookup (pyReplace old " " "_") gt_features) with
  | some gf => (some gf, true)
  | none =>
    match List.lookup new_feat_name gt_features with
    | some gf => (some gf, false)
    | none => (none, false)

/-- `GroundTruthComparator._normalize_gt_value`. -/
def normalize_gt_value (feat_name : String) (gt_feat : Option GtFeat)
    (used_old_name : Bool) : Value :=
  match gt_feat with
  | none => .vnone
  | some gf =>
    if ¬ gf.present then .vnone
    else
      let val := gf.value
      match (List.lookup feat_name FEATURE_TYPES).getD FeatureType.TEXT with
      | .LITERAL_BOOL =>
        let low := pyStrip (pyLower (pyStr val))
        let gt_bool :=
          if strStarts low "yes" ∨ strStarts low "true" ∨ low = "1" then "true"
          else if strStarts low "no" ∨ strStarts low "false" ∨ low = "0" then "false"
          else "true"
        let gt_bool :=
          if used_old_name ∧ GT_INVERTED_BOOLEANS.contains feat_name then
            (if gt_bool = "true" then "false" else "true")
          else gt_bool
        .vstr gt_bool
      | .LITERAL_ENUM => .vstr (pyStrip (pyLower (pyStr val)))
      | .LIST => val
      | .TEXT => val

/-- The domain normalization used by `_find_ground_truth` and
`_build_index`. -/
def normalizeDomainKey (s : String) : String :=
  pyRstripSlash (pyReplace (pyReplace (pyReplace s "https://" "") "http://" "") "www." "")

/-- `GroundTruthComparator._find_ground_truth` over the index built by
`_build_index` (a Python dict where a later entry with the same key wins,
hence the lookup over the reversed association list). -/
def find_ground_truth (domain : String) (entries : List GtEntry) : Option GtEntry :=
  List.lookup (normalizeDomainKey domain)
    ((entries.map (fun e => (normalizeDomainKey e.url, e))).reverse)

inductive LLMType where
  | openai | claude | haiku
deriving DecidableEq

/-- `ExtractedFeatures` (timestamps not modelled). -/
structure ExtractedFeatures where
  domain : String
  crawler : CrawlerType
  llm : LLMType
  features : List (String × Value)
  raw_llm_response : String
  error : Option String
deriving DecidableEq

structure FeatureScore where
  feature_name : String
  extracted_value : Value
  ground_truth_value : Value
  score : ℚ
  match_type : String
deriving DecidableEq

structure PresenceScore where
  feature_name : String
  extracted_present : Bool
  ground_truth_present : Bool
  score : ℚ
  match_type : String
deriving DecidableEq

structure EvaluationResult where
  domain : String
  crawler : CrawlerType
  llm : LLMType
  overall_accuracy : ℚ
  features_found : Nat
  features_correct : Nat
  overall_presence_accuracy : ℚ
  features_present_correct : Nat
  feature_scores : List FeatureScore
  presence_scores : List PresenceScore
  errors : List String
deriving DecidableEq

/-- The per-feature records computed by one iteration of the
`for feat_name in FEATURES` loop of `evaluate`. -/
structure FeatureEval where
  feat_name : String
  extracted_val : Value
  gt_val : Value
  extracted_present : Bool
  gt_present : Bool
  score : ℚ
  match_type : String
  presence_score : ℚ
  presence_match : String
deriving DecidableEq

/-- One iteration of the `evaluate` loop (pure: the loop's accumulators
are recovered below by counting over the mapped records, which is
observationally identical to the source's in-place counters). -/
def eval_feature (gt_features : List (String × GtFeat))
    (extraction_features : List (String × Value)) (feat_name : String) : FeatureEval :=
  let extracted_val := (List.lookup feat_name extraction_features).getD .vnone
  let gf := get_gt_feature gt_features feat_name
  let gt_present := (gf.1.map GtFeat.present).getD false
  let gt_val := if gt_present then normalize_gt_value feat_name gf.1 gf.2 else .vnone
  let extracted_present := is_present_value extracted_val
  let sc := score_feature feat_name extracted_val gt_val gt_present
  let pr := score_presence extracted_present gt_present
  ⟨feat_name, extracted_val, gt_val, extracted_present, gt_present,
   sc.1, sc.2, pr.1, pr.2⟩

/-- `GroundTruthComparator.evaluate`. -/
def evaluate (entries : List GtEntry) (extraction : ExtractedFeatures) : EvaluationResult :=
  match find_ground_truth extraction.domain entries with
  | none =>
    ⟨extraction.domain, extraction.crawler, extraction.llm, 0, 0, 0, 0, 0, [], [],
     ["No ground truth found for " ++ extraction.domain]⟩
  | some gt =>
    let evals := FEATURES.map (eval_feature gt.features extraction.features)
    let found := (evals.filter (fun e => e.extracted_present)).length
    let correct := (evals.filter (fun e => decide ((4/5 : ℚ) ≤ e.score))).length
    let present_correct := (evals.filter (fun e => decide ((1 : ℚ) ≤ e.presence_score))).length
    let accuracy : ℚ := if ¬ FEATURES.isEmpty then (correct : ℚ) / (FEATURES.length : ℚ) else 0
    let presence_accuracy : ℚ :=
      if ¬ FEATURES.isEmpty then (present_correct : ℚ) / (FEATURES.length : ℚ) else 0
    ⟨extraction.domain, extraction.crawler, extraction.llm,
     accuracy, found, correct, presence_accuracy, present_correct,
     evals.map (fun e => ⟨e.feat_name, e.extracted_val, e.gt_val, e.score, e.match_type⟩),
     evals.map (fun e =>
       ⟨e.feat_name, e.extracted_present, e.gt_present, e.presence_score, e.presence_match⟩),
     []⟩

/-! ## Artifact cache and the extraction stage — `src/pipeline/runner.py`

The persisted intermediate artifacts are modelled as an association list
keyed by `(domain_key, crawler, llm)` exactly as `_load_cached_artifact`
derives the path, and Phase 3 of `BenchmarkRunner.run` (runner.py lines
223–233 and 279–282) is embedded with an explicit count of live extractor
calls. -/

/-- `ParsedContent` (the fields persisted in the artifact). -/
structure ParsedContent where
  domain : String
  crawler : CrawlerType
  markdown : String
  page_sections : List (String × String)
  char_count : Nat
deriving DecidableEq

/-- The artifact stored per `(domain, crawler, llm)` key. -/
structure Artifact where
  crawl_result : CrawlResultE
  parsed : ParsedContent
  extraction : ExtractedFeatures
deriving DecidableEq

/-- The cache key of `_load_cached_artifact`:
`slugify(domain minus scheme) / crawler / llm`. -/
def cache_key (domain crawler llm : String) : String × String × String :=
  (slugify (pyReplace (pyReplace domain "https://" "") "http://" ""), crawler, llm)

/-- The persisted cache. -/
abbrev Cache : Type := List ((String × String × String) × Artifact)

/-- `BenchmarkRunner._load_cached_artifact`. -/
def load_cached_artifact (cache : Cache) (domain crawler llm : String) : Option Artifact :=
  List.lookup (cache_key domain crawler llm) cache

/-- Phase 3 of `BenchmarkRunner.run` for one `(domain, crawler, llm)`
combination: use the cached extraction when present (zero extractor
calls), otherwise call the extractor once and, if `save_intermediate`,
persist the artifact.  Returns (extraction, number of live extractor
calls, cache after the run). -/
def extract_stage (cache : Cache) (domain crawler llm : String) (parsed : ParsedContent)
    (extractor : ParsedContent → ExtractedFeatures) (save_intermediate : Bool)
    (crawl_result : CrawlResultE) : ExtractedFeatures × Nat × Cache :=
  match load_cached_artifact cache domain crawler llm with
  | some a => (a.extraction, 0, cache)
  | none =>
    let extraction := extractor parsed
    (extraction, 1,
     if save_intermediate then
       cache ++ [(cache_key domain crawler llm, ⟨crawl_result, parsed, extraction⟩)]
     else cache)

/-! ## Concrete scenario fixtures

Fetch oracles used by the concrete scenario theorems below.  An oracle
maps a URL and an attempt number to the outcome of that fetch attempt. -/

/-- Homepage HTML for the C7 scenario: links to `/pricing`, `/about`,
`/blog/post-1` and `https://external.com`. -/
def scenarioHomepage : String :=
  "<a href=\"/pricing\">Pricing</a> <a href=\"/about\">About</a> " ++
  "<a href=\"/blog/post-1\">Blog</a> <a href=\"https://external.com\">Ext</a>"

/-- Oracle for the C7 scenario: every fetch succeeds with non-blank
content; the homepage serves `scenarioHomepage`. -/
def scenarioFetch : String → Nat → FetchOutcome := fun url _ =>
  if url = "https://example.com" then .ok scenarioHomepage none
  else .ok "Page content." none

/-- Homepage HTML for the C3 counterexample: one link, written with a
trailing slash so that its canonical form matches the preferred
`/pricing` URL while the strings differ. -/
def slashHomepage : String := "<a href=\"/pricing/\">P</a>"

/-- Oracle for the C3 counterexample. -/
def slashFetch : String → Nat → FetchOutcome := fun url _ =>
  if url = "https://example.com" then .ok slashHomepage none
  else .ok "X." none

/-- Oracle for the C6 scenario: every homepage fetch attempt raises while
any other URL would succeed with non-blank content. -/
def failingHomepageFetch : String → Nat → FetchOutcome := fun url _ =>
  if url = "https://example.com" then .err "boom" else .ok "X." none

/-! ## Helper lemmas -/

theorem listContainsSub_of_prefix {needle hay : List Char}
    (h : needle.isPrefixOf hay = true) : listContainsSub needle hay = true := by
  cases hay with
  | nil =>
    cases needle with
    | nil => rfl
    | cons c t => simp [List.isPrefixOf] at h
  | cons c t => simp [listContainsSub, h]

theorem strContains_append_right (p rest : String) :
    strContains (p ++ rest) p = true := by
  apply listContainsSub_of_prefix
  have : p.toList <+: (p ++ rest).toList := by
    simp only [String.toList, String.data_append]
    exact List.prefix_append _ _
  exact List.isPrefixOf_iff_prefix.mpr this

/-! ## C1 — cached artifacts make re-runs free and byte-identical -/

/-- C1: if the artifact cache already holds an entry for the
`(domain, crawler, llm)` key, then running the extraction stage issues
zero live extractor calls and returns the cached extraction unchanged,
and re-running it (with any parsed content and extractor, even different
ones) again issues zero calls and produces an identical
`ExtractedFeatures`. -/
theorem C1_cache_hit_idempotent
    (cache : Cache) (domain crawler llm : String) (a : Artifact)
    (parsed parsed2 : ParsedContent)
    (extractor extractor2 : ParsedContent → ExtractedFeatures)
    (si si2 : Bool) (cr cr2 : CrawlResultE)
    (h : load_cached_artifact cache domain crawler llm = some a) :
    (extract_stage cache domain crawler llm parsed extractor si cr).1 = a.extraction ∧
    (extract_stage cache domain crawler llm parsed extractor si cr).2.1 = 0 ∧
    (extract_stage (extract_stage cache domain crawler llm parsed extractor si cr).2.2
        domain crawler llm parsed2 extractor2 si2 cr2).1 =
      (extract_stage cache domain crawler llm parsed extractor si cr).1 ∧
    (extract_stage (extract_stage cache domain crawler llm parsed extractor si cr).2.2
        domain crawler llm parsed2 extractor2 si2 cr2).2.1 = 0 := by
  simp [extract_stage, h]

/-- C1 witness: a concrete one-entry cache. -/
theorem C1_cache_hit_idempotent_witness :
    (extract_stage
        [(cache_key "example.com" "firecrawl" "openai",
          ⟨⟨"example.com", .firecrawl, "", [], 0, 0, 0, 0, none⟩,
           ⟨"example.com", .firecrawl, "", [], 0⟩,
           ⟨"example.com", .firecrawl, .openai, [], "", none⟩⟩)]
        "example.com" "firecrawl" "openai"
        ⟨"example.com", .firecrawl, "md", [], 2⟩
        (fun p => ⟨p.domain, .firecrawl, .openai, [], "", none⟩) true
        ⟨"example.com", .firecrawl, "", [], 0, 0, 0, 0, none⟩).2.1 = 0 :=
  (C1_cache_hit_idempotent _ "example.com" "firecrawl" "openai"
    ⟨⟨"example.com", .firecrawl, "", [], 0, 0, 0, 0, none⟩,
     ⟨"example.com", .firecrawl, "", [], 0⟩,
     ⟨"example.com", .firecrawl, .openai, [], "", none⟩⟩
    ⟨"example.com", .firecrawl, "md", [], 2⟩ ⟨"example.com", .firecrawl, "md", [], 2⟩
    (fun p => ⟨p.domain, .firecrawl, .openai, [], "", none⟩)
    (fun p => ⟨p.domain, .firecrawl, .openai, [], "", none⟩)
    true true
    ⟨"example.com", .firecrawl, "", [], 0, 0, 0, 0, none⟩
    ⟨"example.com", .firecrawl, "", [], 0, 0, 0, 0, none⟩
    (by rfl)).2.1

/-! ## C9 — the total-links counter is the sum of the other two -/

/-- C9: every `CrawlResult` produced by the orchestrator satisfies
`homepage_total_links = homepage_internal_links + homepage_external_links`
(the source computes the total as exactly this sum). -/
theorem C9_total_links_sum (ct : CrawlerType) (maxRetries : Nat)
    (fetch : String → Nat → FetchOutcome) (domain : String)
    (pages : Option (List String)) (max_pages : Option Int) :
    (crawl ct maxRetries fetch domain pages max_pages).homepage_total_links =
      (crawl ct maxRetries fetch domain pages max_pages).homepage_internal_links +
        (crawl ct maxRetries fetch domain pages max_pages).homepage_external_links :=
  rfl

/-! ## C8 — the two scoring anchors -/

/-- C8 counterexample: reading "absent" through the comparator's own
presence predicate (`_is_present_value`), the string "null" is absent in
the extraction, yet `_score_feature` scores it 0.3 ("false_positive")
against an absent ground truth instead of the perfect 1.0; and the string
"unknown" is absent in the extraction, yet against a present boolean
ground truth it scores 0.5 ("partial") instead of 0.0. -/
theorem C8_counterexample :
    is_present_value (Value.vstr "null") = false ∧
    score_feature "language" (Value.vstr "null") Value.vnone false =
      (3/10, "false_positive") ∧
    is_present_value (Value.vstr "unknown") = false ∧
    score_feature "under_maintenance" (Value.vstr "unknown") (Value.vstr "true") true =
      (1/2, "partial") :=
  ⟨rfl, rfl, rfl, rfl⟩

/-! ## C2 — link discovery: no base URL, no canonical duplicates -/

theorem linkAccInv_insert_internal {base : String} {acc : LinkAcc} {A : String}
    (h : LinkAccInv base acc) (hA : canonical_url A ≠ canonical_url base)
    (hs : canonical_url A ∉ acc.seen) :
    LinkAccInv base ⟨acc.seen ++ [canonical_url A], acc.internal ++ [A], acc.external⟩ := by
  obtain ⟨hnd, hnb, hseen⟩ := h
  have hnm : canonical_url A ∉ (acc.internal ++ acc.external).map canonical_url := by
    intro hmem
    rcases List.mem_map.mp hmem with ⟨u, hu, hequ⟩
    exact hs (hequ ▸ hseen u hu)
  refine ⟨?_, ?_, ?_⟩
  · have he : ((acc.internal ++ [A]) ++ acc.external).map canonical_url =
        acc.internal.map canonical_url ++
          canonical_url A :: acc.external.map canonical_url := by simp
    rw [he, List.nodup_middle, List.nodup_cons]
    constructor
    · simpa [List.map_append] using hnm
    · simpa [List.map_append] using hnd
  · intro u hu
    simp only [List.append_assoc, List.mem_append, List.mem_singleton] at hu
    rcases hu with hu | hu | hu
    · exact hnb u (by simp [hu])
    · exact hu ▸ hA
    · exact hnb u (by simp [hu])
  · intro u hu
    simp only [List.append_assoc, List.mem_append, List.mem_singleton] at hu
    rcases hu with hu | hu | hu
    · exact List.mem_append_left _ (hseen u (by simp [hu]))
    · exact hu ▸ List.mem_append_right _ (by simp)
    · exact List.mem_append_left _ (hseen u (by simp [hu]))

theorem linkAccInv_insert_external {base : String} {acc : LinkAcc} {A : String}
    (h : LinkAccInv base acc) (hA : canonical_url A ≠ canonical_url base)
    (hs : canonical_url A ∉ acc.seen) :
    LinkAccInv base ⟨acc.seen ++ [canonical_url A], acc.internal, acc.external ++ [A]⟩ := by
  obtain ⟨hnd, hnb, hseen⟩ := h
  have hnm : canonical_url A ∉ (acc.internal ++ acc.external).map canonical_url := by
    intro hmem
    rcases List.mem_map.mp hmem with ⟨u, hu, hequ⟩
    exact hs (hequ ▸ hseen u hu)
  refine ⟨?_, ?_, ?_⟩
  · have he : (acc.internal ++ (acc.external ++ [A])).map canonical_url =
        (acc.internal.map canonical_url ++ acc.external.map canonical_url) ++
          canonical_url A :: [] := by simp
    rw [he, List.nodup_middle, List.nodup_cons]
    constructor
    · simpa [List.map_append] using hnm
    · simpa [List.map_append] using hnd
  · intro u hu
    simp only [List.mem_append, List.mem_singleton] at hu
    rcases hu with hu | hu | hu
    · exact hnb u (by simp [hu])
    · exact hnb u (by simp [hu])
    · exact hu ▸ hA
  · intro u hu
    simp only [List.mem_append, List.mem_singleton] at hu
    rcases hu with hu | hu | hu
    · exact List.mem_append_left _ (hseen u (by simp [hu]))
    · exact List.mem_append_left _ (hseen u (by simp [hu]))
    · exact hu ▸ List.mem_append_right _ (by simp)

theorem stepLink_preserves_inv (base baseHost : String) (acc : LinkAcc) (raw : String)
    (h : LinkAccInv base acc) : LinkAccInv base (stepLink base baseHost acc raw) := by
  simp only [stepLink]
  split_ifs with h1 h2 h3 h4 h5 h6 h7
  · exact h
  · exact h
  · exact h
  · exact h
  · exact h
  · exact h
  · exact linkAccInv_insert_internal h h5 (by simpa using h6)
  · exact linkAccInv_insert_external h h5 (by simpa using h6)

theorem foldl_stepLink_inv (base baseHost : String) (raws : List String) (acc : LinkAcc)
    (h : LinkAccInv base acc) :
    LinkAccInv base (raws.foldl (stepLink base baseHost) acc) := by
  induction raws generalizing acc with
  | nil => simpa using h
  | cons r t ih =>
    simp only [List.foldl_cons]
    exact ih _ (stepLink_preserves_inv base baseHost acc r h)

theorem discover_links_inv (content base : String) :
    (((discover_links content base).1 ++ (discover_links content base).2).map
        canonical_url).Nodup ∧
    ∀ u ∈ (discover_links content base).1 ++ (discover_links content base).2,
      canonical_url u ≠ canonical_url base := by
  unfold discover_links
  split_ifs with h
  · simp
  · have hinv := foldl_stepLink_inv base (normalize_host (urlparseP base).netloc)
      (extract_links_from_content content) ⟨[], [], []⟩ ⟨by simp, by simp, by simp⟩
    exact ⟨hinv.1, hinv.2.1⟩

/-- C2: for every content blob and base URL, link discovery returns no
link whose canonical form equals the canonical base URL, and no two links
(across the internal and external sequences together) share a canonical
form. -/
theorem C2_discover_links_canonical (content base : String) :
    (((discover_links content base).1 ++ (discover_links content base).2).all
        (fun u => canonical_url u != canonical_url base)) = true ∧
    (((discover_links content base).1 ++ (discover_links content base).2).map
        canonical_url).Nodup := by
  obtain ⟨hnd, hnb⟩ := discover_links_inv content base
  refine ⟨?_, hnd⟩
  rw [List.all_eq_true]
  intro u hu
  exact bne_iff_ne.mpr (hnb u hu)

/-! ## C3 — crawled-links counter versus discovered-links counter -/

/-- Length bound for the `for url in discovered` dedup-append loop of
`BaseCrawler.crawl`. -/
theorem foldl_insert_length_le (l : List String) :
    ∀ init : List String,
      (l.foldl (fun ord url => if ord.contains url then ord else ord ++ [url]) init).length ≤
        init.length + l.length := by
  induction l with
  | nil => intro init; simp
  | cons u t ih =>
    intro init
    simp only [List.foldl_cons]
    by_cases hc : init.contains u = true
    · rw [if_pos hc]
      calc _ ≤ init.length + t.length := ih init
        _ ≤ init.length + (u :: t).length := by simp [Nat.add_le_add_iff_left]
    · rw [if_neg hc]
      calc _ ≤ (init ++ [u]).length + t.length := ih (init ++ [u])
        _ = init.length + (u :: t).length := by simp; omega

theorem reorder_discovered_length_le (base : String) (discovered : List String) :
    (reorder_discovered base discovered).length ≤ 2 + discovered.length := by
  simp only [reorder_discovered]
  refine le_trans (foldl_insert_length_le discovered _) ?_
  have h := List.length_filter_le
    (fun url => ((discovered.map canonical_url).dedup).contains (canonical_url url))
    (preferred_links base)
  have h2 : (preferred_links base).length = 2 := rfl
  omega

theorem select_pages_length_le (pages : Option (List String)) (max_pages : Option Int)
    (sel : List String) : (select_pages pages max_pages sel).length ≤ sel.length := by
  unfold select_pages
  have hbase : ∀ l : List String,
      (match max_pages with
        | some mp => l.take (max 0 mp).toNat
        | none => l).length ≤ l.length := by
    intro l
    cases max_pages with
    | none => exact le_refl _
    | some mp => simp [List.length_take]
  cases pages with
  | none => exact hbase sel
  | some ps =>
    by_cases hps : ps.isEmpty
    · simp only [hps]
      simpa using hbase sel
    · simp only [hps]
      by_cases hf : (filter_by_pages sel ps).isEmpty
      · simp only [hf]
        simpa using hbase sel
      · simp only [hf]
        refine le_trans (hbase _) ?_
        unfold filter_by_pages
        exact List.length_filter_le _ _

/-- Core bound: once the discovered internal links have pairwise distinct
canonical forms, the crawled-list length exceeds the deduplicated
canonical count by at most the two preferred URLs. -/
theorem crawled_bound_core (base : String) (discovered : List String)
    (pages : Option (List String)) (max_pages : Option Int)
    (hnd : (discovered.map canonical_url).Nodup) :
    (select_pages pages max_pages (reorder_discovered base discovered)).length ≤
      ((discovered.map canonical_url).dedup).length + 2 := by
  have hded : (discovered.map canonical_url).dedup = discovered.map canonical_url :=
    List.dedup_eq_self.mpr hnd
  rw [hded, List.length_map]
  calc (select_pages pages max_pages (reorder_discovered base discovered)).length
      ≤ (reorder_discovered base discovered).length := select_pages_length_le _ _ _
    _ ≤ 2 + discovered.length := reorder_discovered_length_le base discovered
    _ = discovered.length + 2 := by omega

/-- The canonical forms of the internal discovered links alone are
pairwise distinct. -/
theorem discover_internal_nodup (content base : String) :
    ((discover_links content base).1.map canonical_url).Nodup := by
  have h := (discover_links_inv content base).1
  rw [List.map_append] at h
  exact h.of_append_left

/-- C3 counterexample: a homepage whose single link `/pricing/` carries a
trailing slash.  Its canonical form matches the preferred `/pricing` URL,
so the reorder step inserts the preferred string and then re-appends the
slashed original (string inequality), making
`homepage_internal_links_crawled = 2` while `homepage_internal_links = 1`. -/
theorem C3_counterexample :
    (crawl .firecrawl 3 slashFetch "example.com" none (some 10)).homepage_internal_links_crawled
        = 2 ∧
    (crawl .firecrawl 3 slashFetch "example.com" none (some 10)).homepage_internal_links = 1 ∧
    ¬ ((crawl .firecrawl 3 slashFetch "example.com" none
          (some 10)).homepage_internal_links_crawled ≤
        (crawl .firecrawl 3 slashFetch "example.com" none
          (some 10)).homepage_internal_links) := by
  refine ⟨rfl, rfl, ?_⟩
  intro hle
  have h2 : (crawl .firecrawl 3 slashFetch "example.com" none
      (some 10)).homepage_internal_links_crawled = 2 := rfl
  have h1 : (crawl .firecrawl 3 slashFetch "example.com" none
      (some 10)).homepage_internal_links = 1 := rfl
  rw [h2, h1] at hle
  omega

/-- C3 amended: the crawled-links counter can exceed the discovered-links
counter only through the two preferred URLs (`/pricing`, `/about`), so for
every crawl `homepage_internal_links_crawled ≤ homepage_internal_links + 2`. -/
theorem C3_crawled_le_internal_plus_two (ct : CrawlerType) (maxRetries : Nat)
    (fetch : String → Nat → FetchOutcome) (domain : String)
    (pages : Option (List String)) (max_pages : Option Int) :
    (crawl ct maxRetries fetch domain pages max_pages).homepage_internal_links_crawled ≤
      (crawl ct maxRetries fetch domain pages max_pages).homepage_internal_links + 2 := by
  exact crawled_bound_core (normalize_base domain) _ pages max_pages
    (discover_internal_nodup _ (normalize_base domain))

/-! ## C4 — rate limiter spacing -/

/-- One rate-limited timing decision starts at least `0.8 · d` after the
recorded previous start, for every admissible clock reading and jitter. -/
theorem rate_limit_start_gap (d last now j : ℚ) (hd : 0 ≤ d) (hln : last ≤ now)
    (hj1 : -(1/5) ≤ j) (hj2 : j ≤ 1/5) :
    last + (4/5) * d ≤ rate_limit_start d last now j := by
  simp only [rate_limit_start]
  split_ifs with h
  · have hw : 0 ≤ d - (now - last) := by linarith
    have hwj : (4/5) * (d - (now - last)) ≤
        (d - (now - last)) + j * (d - (now - last)) := by nlinarith
    have hmax := le_max_right (0 : ℚ) ((d - (now - last)) + j * (d - (now - last)))
    have hlin : last + (4/5) * d ≤ now + (4/5) * (d - (now - last)) := by linarith
    linarith
  · have := not_lt.mp h
    linarith

/-- Consecutive rate-limited starts on one host are at least `0.8 · d`
apart. -/
theorem limiter_starts_chain (d : ℚ) (hd : 0 ≤ d) :
    ∀ (evts : List (ℚ × ℚ)) (last : ℚ), ValidTrace d last evts →
      List.Chain' (fun a b => a + (4/5) * d ≤ b) (limiter_starts d last evts) := by
  intro evts
  induction evts with
  | nil => intro last _; simp [limiter_starts]
  | cons e rest ih =>
    intro last hv
    obtain ⟨now, j⟩ := e
    obtain ⟨h1, h2, h3, h4⟩ := hv
    simp only [limiter_starts]
    rw [List.chain'_cons']
    refine ⟨?_, ih _ h4⟩
    intro b hb
    cases rest with
    | nil => simp [limiter_starts] at hb
    | cons e2 r2 =>
      obtain ⟨now2, j2⟩ := e2
      simp only [limiter_starts, List.head?, Option.mem_def, Option.some.injEq] at hb
      obtain ⟨g1, g2, g3, _⟩ := h4
      rw [← hb]
      exact rate_limit_start_gap d _ now2 j2 hd g1 g2 g3

/-- C4: for every host with a configured minimum delay `d ≥ 0` and every
admissible interleaving of rate-limited fetches of that host (serialized
by the per-host lock) with any jitter outcomes, every pair of fetch start
times is at least `0.8 · d` apart. -/
theorem C4_rate_limiter_spacing (d last : ℚ) (evts : List (ℚ × ℚ)) (hd : 0 ≤ d)
    (hv : ValidTrace d last evts) :
    (limiter_starts d last evts).Pairwise (fun a b => a + (4/5) * d ≤ b) := by
  have hch := limiter_starts_chain d hd evts last hv
  haveI : IsTrans ℚ (fun a b : ℚ => a + (4/5) * d ≤ b) := by
    refine ⟨fun a b c hab hbc => ?_⟩
    have h0 : (0 : ℚ) ≤ (4/5) * d := by nlinarith
    simp only at hab hbc ⊢
    linarith
  exact List.chain'_iff_pairwise.mp hch

/-- C4 witness: a trace of two fetches with `d = 1`. -/
theorem C4_rate_limiter_spacing_witness :
    (limiter_starts 1 0 [(10, 0), (10, 0)]).Pairwise (fun a b => a + (4/5) * 1 ≤ b) :=
  C4_rate_limiter_spacing 1 0 [(10, 0), (10, 0)] (by norm_num)
    (by norm_num [ValidTrace, rate_limit_start])

/-! ## C5 — retry/backoff policy -/

/-- Membership of backoff events in the retry loop's trace, characterized
for every fuel and starting attempt: a backoff of `2 ^ k` seconds is
recorded exactly after a reached attempt `k` that failed with an error
whose text contains one of the HTTP codes 429/403/503, provided `k` is not
the final attempt. -/
theorem go_backoff_mem (maxR : Nat) (useHtml : Bool) (pn url : String)
    (f : Nat → FetchOutcome) :
    ∀ (fuel attempt k s : Nat),
      RetryEvent.backoff k s ∈
          (crawl_with_retries_go maxR useHtml pn url f fuel attempt).events ↔
        (attempt ≤ k ∧ k < attempt + fuel ∧ k < maxR - 1 ∧ s = 2 ^ k ∧
         (∀ j, attempt ≤ j → j < k → (f j).isErr = true) ∧
         ∃ m, f k = FetchOutcome.err m ∧ has_transient_code m = true) := by
  intro fuel
  induction fuel with
  | zero =>
    intro attempt k s
    simp only [crawl_with_retries_go]
    constructor
    · intro h
      exact absurd h (List.not_mem_nil _)
    · rintro ⟨h1, h2, -⟩
      omega
  | succ n ih =>
    intro attempt k s
    cases hf : f attempt with
    | ok c htm =>
      simp only [crawl_with_retries_go, hf, List.mem_singleton]
      constructor
      · intro h
        exact absurd h (by simp)
      · rintro ⟨h1, h2, h3, h4, h5, m, hm, -⟩
        rcases Nat.eq_or_lt_of_le h1 with he | hl
        · rw [← he] at hm
          rw [hf] at hm
          simp at hm
        · have hi := h5 attempt (le_refl _) hl
          rw [hf] at hi
          simp [FetchOutcome.isErr] at hi
    | err e =>
      simp only [crawl_with_retries_go, hf]
      split_ifs with hc1 hc2
      · -- transient error, not the final attempt: backoff then retry
        simp only [List.mem_cons]
        constructor
        · rintro (h | h | h)
          · exact absurd h (by simp)
          · simp only [RetryEvent.backoff.injEq] at h
            obtain ⟨hk, hs⟩ := h
            subst hk
            exact ⟨le_refl _, by omega, hc1.1, by rw [hs],
              fun j hj1 hj2 => absurd hj2 (by omega), ⟨e, hf, hc1.2⟩⟩
          · obtain ⟨h1, h2, h3, h4, h5, hm⟩ := (ih (attempt + 1) k s).mp h
            refine ⟨by omega, by omega, h3, h4, fun j hj1 hj2 => ?_, hm⟩
            by_cases hj : j = attempt
            · rw [hj, hf]; rfl
            · exact h5 j (by omega) hj2
        · rintro ⟨h1, h2, h3, h4, h5, m, hm, htr⟩
          by_cases hk : k = attempt
          · subst hk
            right; left
            rw [h4]
          · right; right
            exact (ih (attempt + 1) k s).mpr ⟨by omega, by omega, h3, h4,
              fun j hj1 hj2 => h5 j (by omega) hj2, m, hm, htr⟩
      · -- final attempt: record the error and stop
        simp only [List.mem_singleton]
        constructor
        · intro h
          exact absurd h (by simp)
        · rintro ⟨h1, -, h3, -⟩
          omega
      · -- non-transient error before the final attempt: retry immediately
        simp only [List.mem_cons]
        constructor
        · rintro (h | h)
          · exact absurd h (by simp)
          · obtain ⟨h1, h2, h3, h4, h5, hm⟩ := (ih (attempt + 1) k s).mp h
            refine ⟨by omega, by omega, h3, h4, fun j hj1 hj2 => ?_, hm⟩
            by_cases hj : j = attempt
            · rw [hj, hf]; rfl
            · exact h5 j (by omega) hj2
        · rintro ⟨h1, h2, h3, h4, h5, m, hm, htr⟩
          by_cases hk : k = attempt
          · exfalso
            subst hk
            rw [hf] at hm
            injection hm with hem
            exact hc1 ⟨by omega, by rw [hem]; exact htr⟩
          · exact Or.inr ((ih (attempt + 1) k s).mpr ⟨by omega, by omega, h3, h4,
              fun j hj1 hj2 => h5 j (by omega) hj2, m, hm, htr⟩)

/-- When every attempt up to the budget fails, the retry loop returns the
empty result with no html and appends exactly one formatted error for the
final attempt. -/
theorem go_allfail_spec (maxR : Nat) (useHtml : Bool) (pn url : String)
    (f : Nat → FetchOutcome) :
    ∀ fuel attempt, (∀ j, j < maxR → (f j).isErr = true) → attempt + fuel = maxR →
      1 ≤ fuel →
      (crawl_with_retries_go maxR useHtml pn url f fuel attempt).content = "" ∧
      (crawl_with_retries_go maxR useHtml pn url f fuel attempt).html = none ∧
      ∃ m, f (maxR - 1) = FetchOutcome.err m ∧
        (crawl_with_retries_go maxR useHtml pn url f fuel attempt).newErrors =
          [pn ++ " (" ++ url ++ "): " ++ m] := by
  intro fuel
  induction fuel with
  | zero =>
    intro attempt _ _ h1
    omega
  | succ n ih =>
    intro attempt hall hinv _
    have hae : (f attempt).isErr = true := hall attempt (by omega)
    cases hf : f attempt with
    | ok c htm => rw [hf] at hae; simp [FetchOutcome.isErr] at hae
    | err e =>
      simp only [crawl_with_retries_go, hf]
      split_ifs with hc1 hc2
      · exact ih (attempt + 1) hall (by omega) (by omega)
      · refine ⟨rfl, rfl, e, ?_, rfl⟩
        rw [← hc2]
        exact hf
      · have hlt : attempt < maxR - 1 := by omega
        exact ih (attempt + 1) hall (by omega) (by omega)

/-- C5 counterexample: with `max_retries = 3`, every attempt raising
"Connection timeout" — a network/timeout failure, hence transient per the
claim — produces a trace with three failed attempts, no error-recording
before the last, and no backoff event at all; in particular the
`2 ^ 0 = 1` second backoff the claim requires after the first failed
attempt is absent, because the source only backs off when the error text
contains 429, 403 or 503. -/
theorem C5_counterexample :
    (crawl_with_retries_impl 3 false "homepage" "https://example.com"
        (fun _ => FetchOutcome.err "Connection timeout")).events =
      [.attemptFail 0 "Connection timeout", .attemptFail 1 "Connection timeout",
       .attemptFail 2 "Connection timeout"] ∧
    has_transient_code "Connection timeout" = false ∧
    RetryEvent.backoff 0 1 ∉
      (crawl_with_retries_impl 3 false "homepage" "https://example.com"
        (fun _ => FetchOutcome.err "Connection timeout")).events := by
  refine ⟨rfl, rfl, ?_⟩
  intro h
  rw [show (crawl_with_retries_impl 3 false "homepage" "https://example.com"
      (fun _ => FetchOutcome.err "Connection timeout")).events =
    [.attemptFail 0 "Connection timeout", .attemptFail 1 "Connection timeout",
     .attemptFail 2 "Connection timeout"] from rfl] at h
  simp at h

/-- C5 amended: a backoff of `2 ^ attempt` seconds precedes the next
attempt exactly when the failed attempt's error text contains one of the
HTTP codes 429/403/503 and the attempt is not the final one (other
transient failures such as network/timeout/TLS errors retry immediately
with no backoff); and when every attempt fails, the final
(`max_retries`-th) attempt appends its error to the error list and the
call returns an empty result instead of retrying. -/
theorem C5_backoff_policy (useHtml : Bool) (pn url : String)
    (f : Nat → FetchOutcome) (maxRetries : Nat) :
    (∀ k s, RetryEvent.backoff k s ∈
        (crawl_with_retries_impl maxRetries useHtml pn url f).events ↔
      (k < maxRetries - 1 ∧ s = 2 ^ k ∧ (∀ j, j < k → (f j).isErr = true) ∧
       ∃ m, f k = FetchOutcome.err m ∧ has_transient_code m = true)) ∧
    (1 ≤ maxRetries → (∀ j, j < maxRetries → (f j).isErr = true) →
      (crawl_with_retries_impl maxRetries useHtml pn url f).content = "" ∧
      ∃ m, f (maxRetries - 1) = FetchOutcome.err m ∧
        (crawl_with_retries_impl maxRetries useHtml pn url f).newErrors =
          [pn ++ " (" ++ url ++ "): " ++ m]) := by
  constructor
  · intro k s
    rw [crawl_with_retries_impl, go_backoff_mem]
    constructor
    · rintro ⟨-, -, h3, h4, h5, hm⟩
      exact ⟨h3, h4, fun j hj => h5 j (by omega) hj, hm⟩
    · rintro ⟨h3, h4, h5, hm⟩
      exact ⟨by omega, by omega, h3, h4, fun j _ hj => h5 j hj, hm⟩
  · intro hmr hall
    obtain ⟨hc, -, m, hm, he⟩ :=
      go_allfail_spec maxRetries useHtml pn url f maxRetries 0 hall (by omega) hmr
    exact ⟨hc, m, hm, he⟩

/-- C5 witness: with errors carrying HTTP 429, the backoff events are
present, and exhaustion returns the empty result with the recorded error. -/
theorem C5_backoff_policy_witness :
    RetryEvent.backoff 0 1 ∈
      (crawl_with_retries_impl 3 false "homepage" "u"
        (fun _ => FetchOutcome.err "HTTP 429")).events ∧
    (crawl_with_retries_impl 3 false "homepage" "u"
        (fun _ => FetchOutcome.err "HTTP 429")).content = "" :=
  ⟨((C5_backoff_policy false "homepage" "u" (fun _ => FetchOutcome.err "HTTP 429") 3).1
      0 1).mpr
    ⟨by omega, rfl, fun j hj => rfl, "HTTP 429", rfl, rfl⟩,
   ((C5_backoff_policy false "homepage" "u" (fun _ => FetchOutcome.err "HTTP 429") 3).2
      (by omega) (fun j _ => rfl)).1⟩

/-! ## C6 — crawls whose homepage fetches all fail -/

theorem impl_allfail_content (maxR : Nat) (useHtml : Bool) (pn url : String)
    (f : Nat → FetchOutcome) (hall : ∀ j, (f j).isErr = true) :
    (crawl_with_retries_impl maxR useHtml pn url f).content = "" ∧
    (crawl_with_retries_impl maxR useHtml pn url f).html = none := by
  cases maxR with
  | zero => exact ⟨rfl, rfl⟩
  | succ n =>
    have h := go_allfail_spec (n + 1) useHtml pn url f (n + 1) 0
      (fun j _ => hall j) (by omega) (by omega)
    exact ⟨h.1, h.2.1⟩

theorem crawl_homepage_allfail (ct : CrawlerType) (maxR : Nat) (base : String)
    (f : String → Nat → FetchOutcome) (hall : ∀ a, (f base a).isErr = true) :
    (crawl_homepage ct maxR base f).content = "" ∧
    (crawl_homepage ct maxR base f).html = none := by
  unfold crawl_homepage
  split_ifs with h
  · exact impl_allfail_content maxR true "homepage" base (f base) hall
  · exact ⟨(impl_allfail_content maxR false "homepage" base (f base) hall).1, rfl⟩

theorem crawl_homepage_allfail_errors (ct : CrawlerType) (maxR : Nat) (base : String)
    (f : String → Nat → FetchOutcome) (hall : ∀ a, (f base a).isErr = true)
    (h1 : 1 ≤ maxR) :
    ∃ m, (crawl_homepage ct maxR base f).newErrors =
      ["homepage" ++ " (" ++ base ++ "): " ++ m] := by
  unfold crawl_homepage
  split_ifs with h
  · obtain ⟨-, -, m, -, he⟩ := go_allfail_spec maxR true "homepage" base (f base) maxR 0
      (fun j _ => hall j) (by omega) h1
    exact ⟨m, he⟩
  · obtain ⟨-, -, m, -, he⟩ := go_allfail_spec maxR false "homepage" base (f base) maxR 0
      (fun j _ => hall j) (by omega) h1
    exact ⟨m, he⟩

theorem reorder_discovered_nil (base : String) : reorder_discovered base [] = [] := by
  simp [reorder_discovered, preferred_links, List.filter_eq_nil_iff]

theorem select_pages_nil (pages : Option (List String)) (max_pages : Option Int) :
    select_pages pages max_pages [] = [] := by
  unfold select_pages
  cases pages <;> cases max_pages <;> simp [filter_by_pages]

/-- When every homepage fetch attempt raises, the crawl has no discovery
source: the result carries empty content, no pages, zero counters, and
only the homepage errors. -/
theorem crawl_allfail_eq (ct : CrawlerType) (maxRetries : Nat)
    (fetch : String → Nat → FetchOutcome) (domain : String)
    (pages : Option (List String)) (max_pages : Option Int)
    (hall : ∀ a, (fetch (normalize_base domain) a).isErr = true) :
    crawl ct maxRetries fetch domain pages max_pages =
      ⟨domain, ct, "", [], 0, 0, 0, 0,
       if ¬ (crawl_homepage ct maxRetries (normalize_base domain) fetch).newErrors.isEmpty
       then some (joinSep "; "
         (crawl_homepage ct maxRetries (normalize_base domain) fetch).newErrors)
       else none⟩ := by
  obtain ⟨hc, hh⟩ := crawl_homepage_allfail ct maxRetries (normalize_base domain) fetch hall
  simp only [crawl, hc, hh]
  have hd : discover_links "" (normalize_base domain) = ([], []) := rfl
  simp only [hd, reorder_discovered_nil, select_pages_nil]
  simp [joinSep]

/-- C6 counterexample (negation of the claim): there is no crawl in which
every homepage fetch attempt fails and the combined document is
non-empty — with the homepage down there is no discovery source, so no
pages are fetched at all. -/
theorem C6_counterexample :
    ¬ ∃ (ct : CrawlerType) (maxRetries : Nat) (fetch : String → Nat → FetchOutcome)
        (domain : String) (pages : Option (List String)) (max_pages : Option Int),
      (∀ a, (fetch (normalize_base domain) a).isErr = true) ∧
      (crawl ct maxRetries fetch domain pages max_pages).raw_content ≠ "" := by
  rintro ⟨ct, mr, fetch, domain, pages, mp, hall, hne⟩
  exact hne (by rw [crawl_allfail_eq ct mr fetch domain pages mp hall])

/-- C6 amended: a crawl in which every homepage fetch attempt fails (with
at least one attempt allowed) yields an EMPTY combined document — no page
is fetched since there is no discovery source — together with an error
string mentioning the homepage. -/
theorem C6_failed_homepage_empty_crawl (ct : CrawlerType) (maxRetries : Nat)
    (fetch : String → Nat → FetchOutcome) (domain : String)
    (pages : Option (List String)) (max_pages : Option Int)
    (hall : ∀ a, (fetch (normalize_base domain) a).isErr = true)
    (hmr : 1 ≤ maxRetries) :
    (crawl ct maxRetries fetch domain pages max_pages).raw_content = "" ∧
    ∃ e, (crawl ct maxRetries fetch domain pages max_pages).error = some e ∧
      strContains e "homepage" = true := by
  obtain ⟨m, hm⟩ :=
    crawl_homepage_allfail_errors ct maxRetries (normalize_base domain) fetch hall hmr
  rw [crawl_allfail_eq ct maxRetries fetch domain pages max_pages hall]
  refine ⟨rfl, "homepage" ++ " (" ++ normalize_base domain ++ "): " ++ m, ?_, ?_⟩
  · simp [hm, joinSep]
  · have h1 := strContains_append_right "homepage"
      (" (" ++ (normalize_base domain ++ ("): " ++ m)))
    simpa [String.append_assoc] using h1

/-- C6 witness for the amended theorem: a concrete crawl whose homepage
always raises. -/
theorem C6_failed_homepage_empty_crawl_witness :
    (crawl .firecrawl 3 failingHomepageFetch "example.com" none (some 10)).raw_content = "" ∧
    ∃ e, (crawl .firecrawl 3 failingHomepageFetch "example.com" none (some 10)).error = some e ∧
      strContains e "homepage" = true :=
  C6_failed_homepage_empty_crawl .firecrawl 3 failingHomepageFetch "example.com" none (some 10)
    (fun _ => rfl) (by omega)

/-! ## C7 — the example.com scenario -/

set_option maxRecDepth 40000 in
/-- C7: for the domain `example.com` whose homepage contains exactly the
links `/pricing`, `/about`, `/blog/post-1` and `https://external.com`,
with `max_pages = 2` and all fetches succeeding with non-blank content,
the page map has exactly the keys `homepage`, `/pricing`, `/about` (the
preferred pricing/about pages ahead of `/blog/post-1`), with
`homepage_internal_links = 3` and `homepage_external_links = 1`. -/
theorem C7_scenario :
    ((crawl .firecrawl 3 scenarioFetch "example.com" none (some 2)).page_contents.map
        Prod.fst) = ["homepage", "/pricing", "/about"] ∧
    (crawl .firecrawl 3 scenarioFetch "example.com" none
        (some 2)).homepage_internal_links = 3 ∧
    (crawl .firecrawl 3 scenarioFetch "example.com" none
        (some 2)).homepage_external_links = 1 :=
  ⟨rfl, rfl, rfl⟩

/-! ## C10 — evaluation results are bounded and accuracy is a ratio -/

theorem score_literal_bool_bounds (a b : Value) :
    0 ≤ (score_literal_bool a b).1 ∧ (score_literal_bool a b).1 ≤ 1 := by
  simp only [score_literal_bool]
  split_ifs <;> norm_num

theorem score_literal_enum_bounds (a b : Value) :
    0 ≤ (score_literal_enum a b).1 ∧ (score_literal_enum a b).1 ≤ 1 := by
  simp only [score_literal_enum]
  split_ifs <;> norm_num

theorem score_list_bounds (a b : Value) :
    0 ≤ (score_list a b).1 ∧ (score_list a b).1 ≤ 1 := by
  simp only [score_list]
  split_ifs <;> norm_num

theorem score_text_bounds (a b : Value) :
    0 ≤ (score_text a b).1 ∧ (score_text a b).1 ≤ 1 := by
  simp only [score_text]
  split_ifs <;> norm_num

theorem score_feature_bounds (n : String) (e g : Value) (p : Bool) :
    0 ≤ (score_feature n e g p).1 ∧ (score_feature n e g p).1 ≤ 1 := by
  simp only [score_feature]
  split_ifs with h1 h2 h3
  · norm_num
  · norm_num
  · split
    · norm_num
    · split_ifs <;> norm_num
    · norm_num
  · split
    · exact score_literal_bool_bounds e g
    · exact score_literal_enum_bounds e g
    · exact score_list_bounds e g
    · exact score_text_bounds e g

theorem score_presence_bounds (a b : Bool) :
    0 ≤ (score_presence a b).1 ∧ (score_presence a b).1 ≤ 1 := by
  simp only [score_presence]
  split_ifs <;> norm_num

theorem eval_feature_score_bounds (gtf : List (String × GtFeat))
    (exf : List (String × Value)) (fn : String) :
    0 ≤ (eval_feature gtf exf fn).score ∧ (eval_feature gtf exf fn).score ≤ 1 := by
  simp only [eval_feature]
  exact score_feature_bounds _ _ _ _

theorem eval_feature_presence_bounds (gtf : List (String × GtFeat))
    (exf : List (String × Value)) (fn : String) :
    0 ≤ (eval_feature gtf exf fn).presence_score ∧
      (eval_feature gtf exf fn).presence_score ≤ 1 := by
  simp only [eval_feature]
  exact score_presence_bounds _ _

theorem length_filter_map_score (evals : List FeatureEval) (p : ℚ → Bool) :
    ((evals.map (fun e => (⟨e.feat_name, e.extracted_val, e.gt_val, e.score,
        e.match_type⟩ : FeatureScore))).filter (fun s => p s.score)).length =
      (evals.filter (fun e => p e.score)).length := by
  induction evals with
  | nil => rfl
  | cons h t ih =>
    simp only [List.map_cons, List.filter_cons]
    cases hp : p h.score <;> simp [hp, ih]

/-- C10: every feature score and presence score produced by `evaluate`
lies in `[0, 1]`, both overall accuracies lie in `[0, 1]`, and the overall
accuracy equals the number of features scoring at least 0.8 divided by the
number of evaluated features (with the empty ratio `0/0 = 0` in the
no-ground-truth branch, which carries no feature scores). -/
theorem C10_evaluation_bounds (entries : List GtEntry) (extraction : ExtractedFeatures) :
    ((evaluate entries extraction).feature_scores.all
        (fun s => decide (0 ≤ s.score) && decide (s.score ≤ 1))) = true ∧
    ((evaluate entries extraction).presence_scores.all
        (fun s => decide (0 ≤ s.score) && decide (s.score ≤ 1))) = true ∧
    0 ≤ (evaluate entries extraction).overall_accuracy ∧
    (evaluate entries extraction).overall_accuracy ≤ 1 ∧
    0 ≤ (evaluate entries extraction).overall_presence_accuracy ∧
    (evaluate entries extraction).overall_presence_accuracy ≤ 1 ∧
    (evaluate entries extraction).overall_accuracy =
      (((evaluate entries extraction).feature_scores.filter
          (fun s => decide ((4/5 : ℚ) ≤ s.score))).length : ℚ) /
        ((evaluate entries extraction).feature_scores.length : ℚ) := by
  cases hgt : find_ground_truth extraction.domain entries with
  | none =>
    simp [evaluate, hgt]
  | some gt =>
    simp only [evaluate, hgt]
    have hlen : (FEATURES.map (eval_feature gt.features extraction.features)).length =
        FEATURES.length := List.length_map _ _
    have hcorr :
        ((FEATURES.map (eval_feature gt.features extraction.features)).filter
          (fun e => decide ((4/5 : ℚ) ≤ e.score))).length ≤ FEATURES.length := by
      calc ((FEATURES.map (eval_feature gt.features extraction.features)).filter
            (fun e => decide ((4/5 : ℚ) ≤ e.score))).length
          ≤ (FEATURES.map (eval_feature gt.features extraction.features)).length :=
            List.length_filter_le _ _
        _ = FEATURES.length := hlen
    have hpcorr :
        ((FEATURES.map (eval_feature gt.features extraction.features)).filter
          (fun e => decide ((1 : ℚ) ≤ e.presence_score))).length ≤ FEATURES.length := by
      calc ((FEATURES.map (eval_feature gt.features extraction.features)).filter
            (fun e => decide ((1 : ℚ) ≤ e.presence_score))).length
          ≤ (FEATURES.map (eval_feature gt.features extraction.features)).length :=
            List.length_filter_le _ _
        _ = FEATURES.length := hlen
    have hfl : FEATURES.length = 20 := rfl
    have hne : (¬ FEATURES.isEmpty) = True := by simp [FEATURES]
    refine ⟨?_, ?_, ?_, ?_, ?_, ?_, ?_⟩
    · rw [List.all_eq_true]
      intro fs hfs
      rcases List.mem_map.mp hfs with ⟨e, he, rfl⟩
      rcases List.mem_map.mp he with ⟨fn, -, rfl⟩
      have hb := eval_feature_score_bounds gt.features extraction.features fn
      simp only [Bool.and_eq_true, decide_eq_true_eq]
      exact hb
    · rw [List.all_eq_true]
      intro ps hps
      rcases List.mem_map.mp hps with ⟨e, he, rfl⟩
      rcases List.mem_map.mp he with ⟨fn, -, rfl⟩
      have hb := eval_feature_presence_bounds gt.features extraction.features fn
      simp only [Bool.and_eq_true, decide_eq_true_eq]
      exact hb
    · simp only [hne, if_true]
      positivity
    · simp only [hne, if_true]
      rw [div_le_one (by rw [hfl]; norm_num)]
      exact_mod_cast hcorr
    · simp only [hne, if_true]
      positivity
    · simp only [hne, if_true]
      rw [div_le_one (by rw [hfl]; norm_num)]
      exact_mod_cast hpcorr
    · simp only [hne, if_true]
      rw [length_filter_map_score
        (FEATURES.map (eval_feature gt.features extraction.features))
        (fun q => decide ((4/5 : ℚ) ≤ q))]
      rw [List.length_map, List.length_map]

/-- C8 amended: with "absent in the extraction" read as a null (`None`)
extracted value, the two anchors hold for every feature and ground-truth
value: null extraction against absent ground truth scores a perfect 1.0,
and null extraction against present ground truth scores 0.0. -/
theorem C8_null_scoring_anchors (feat_name : String) (gt_val : Value) :
    score_feature feat_name Value.vnone gt_val false = (1, "both_null") ∧
    score_feature feat_name Value.vnone gt_val true = (0, "missing") := by
  constructor <;> simp [score_feature]

end Scrappers
